import Mathlib

/-!
Verification of the browser-coordinator core against its design document.

The definitions below are a shallow embedding of the TypeScript sources:
`cdp-proxy.ts` (TCP reverse proxy with single-flight lazy launch),
`browser-launcher` (readiness parsing, free-port allocation, Chromium flags),
`browser-detector.ts` (browser enumeration and pick),
the rendezvous state module (`writeState`/`readState`),
`ipc-socket.ts` (`sendIpcRequest`) and `coordinator-server.ts`
(`sendIpc`, `coordinator_navigate`).
Asynchronous handlers are modelled as explicit state machines whose events
are the callbacks the Node event loop delivers; a synchronous callback body
is one atomic transition.
-/

/- ===================== Definitions: CDP proxy (cdp-proxy.ts) ============ -/

/-- A socket tracked in the proxy's connection set.  A client socket and the
backend socket opened for it share the connection id. -/
inductive Sock
  | client (id : Nat)
  | backend (id : Nat)
deriving DecidableEq, Repr

/-- State of the `CdpProxy` class: its private fields, plus a ghost counter
`launchCount` recording how many times the lazy-launch callback has been
invoked, and the list `launchAwaiters` of connections awaiting the pending
launch promise. -/
structure ProxyState where
  serverOpen : Bool
  backendPort : Option Nat
  connections : List Sock
  listenPort : Nat
  hasLazyLaunch : Bool
  launching : Bool
  launchAwaiters : List Nat
  launchCount : Nat
deriving DecidableEq, Repr

/-- Field initialisers of the `CdpProxy` class. -/
def initProxy : ProxyState :=
  { serverOpen := false, backendPort := none, connections := [], listenPort := 0,
    hasLazyLaunch := false, launching := false, launchAwaiters := [], launchCount := 0 }

/-- `CdpProxy.listen(port)`: on the listening callback the bound port reported
by the OS is recorded in `listenPort`. -/
def proxyListen (s : ProxyState) (boundPort : Nat) : ProxyState :=
  { s with serverOpen := true, listenPort := boundPort }

/-- `CdpProxy.onLazyLaunch(cb)`. -/
def proxyOnLazyLaunch (s : ProxyState) : ProxyState :=
  { s with hasLazyLaunch := true }

/-- `CdpProxy.getPort()`. -/
def proxyGetPort (s : ProxyState) : Nat :=
  s.listenPort

/-- Set-like insertion into the connection set (`Set.add`). -/
def insertSock (cs : List Sock) (x : Sock) : List Sock :=
  if x ∈ cs then cs else x :: cs

/-- Events delivered to the proxy after `listen` succeeded: the public
mutators, an incoming connection, resolution or failure of the pending lazy
launch, and a tracked socket closing. -/
inductive ProxyOp
  | setBackend (port : Nat)
  | clearBackend
  | closeConnections
  | closeServer
  | connect (id : Nat)
  | launchResolve (port : Nat)
  | launchFail
  | sockClose (sock : Sock)
deriving DecidableEq, Repr

/-- Synchronous prefix of `handleConnection`: the client socket is added to
the set; with a backend present a backend connection is opened at once; with
no backend the connection is rejected (no callback), joins the pending launch
(launch in progress) or starts the single launch (callback invoked,
`launchCount` incremented). -/
def handleConnect (s : ProxyState) (id : Nat) : ProxyState :=
  let s1 := { s with connections := insertSock s.connections (Sock.client id) }
  match s1.backendPort with
  | some _ => { s1 with connections := insertSock s1.connections (Sock.backend id) }
  | none =>
    if s1.hasLazyLaunch then
      if s1.launching then
        { s1 with launchAwaiters := id :: s1.launchAwaiters }
      else
        { s1 with launching := true, launchCount := s1.launchCount + 1,
                  launchAwaiters := [id] }
    else
      { s1 with connections := s1.connections.filter (fun c => c ≠ Sock.client id) }

/-- The pending launch promise resolves with `port`: the guard is cleared and
every awaiting connection sets the backend port and opens its backend
connection (the microtask chain runs before any further connection event). -/
def handleLaunchResolve (s : ProxyState) (port : Nat) : ProxyState :=
  if s.launching then
    { s with launching := false,
             backendPort := some port,
             launchAwaiters := [],
             connections := s.launchAwaiters.foldl
               (fun cs id => insertSock cs (Sock.backend id)) s.connections }
  else s

/-- The pending launch promise rejects: the guard is cleared and every
awaiting connection destroys its client socket (`catch` branch of
`handleConnection`). -/
def handleLaunchFail (s : ProxyState) : ProxyState :=
  if s.launching then
    { s with launching := false,
             launchAwaiters := [],
             connections := s.connections.filter (fun c =>
               match c with
               | Sock.client id => !(s.launchAwaiters.contains id)
               | Sock.backend _ => true) }
  else s

/-- One proxy event.  `setBackend`, `clearBackend`, `closeConnections` and
`close` are transcribed from the class methods; `close` destroys every
connection and closes the listener but leaves `listenPort` as it is, exactly
as the source does. -/
def applyOp (s : ProxyState) : ProxyOp → ProxyState
  | ProxyOp.setBackend p => { s with backendPort := some p }
  | ProxyOp.clearBackend => { s with backendPort := none }
  | ProxyOp.closeConnections => { s with connections := [] }
  | ProxyOp.closeServer => { s with connections := [], serverOpen := false }
  | ProxyOp.connect id => handleConnect s id
  | ProxyOp.launchResolve p => handleLaunchResolve s p
  | ProxyOp.launchFail => handleLaunchFail s
  | ProxyOp.sockClose sock => { s with connections := s.connections.erase sock }

/-- A sequence of proxy events. -/
def applyOps (s : ProxyState) (ops : List ProxyOp) : ProxyState :=
  ops.foldl applyOp s

/-- Proxy state right after `listen` succeeded and the lazy-launch callback
was registered, with no backend set. -/
def lazyInitProxy (boundPort : Nat) : ProxyState :=
  proxyOnLazyLaunch (proxyListen initProxy boundPort)

/-- A reachable state used to refute the claim that `clearBackend` closes
connections: listen, register callback, set a backend, accept one
connection, then call `clearBackend`. -/
def clearBackendDemo : ProxyState :=
  applyOps (lazyInitProxy 41837)
    [ProxyOp.setBackend 52100, ProxyOp.connect 7, ProxyOp.clearBackend]

/- ============ Definitions: browser launcher ============================= -/

/-- A character that the readiness regex's dot can match: anything except a
line terminator. -/
def notLineTerm (c : Char) : Bool :=
  !(c = '\n' || c = '\r')

/-- The literal part of the Chromium readiness pattern up to and including
the capture group's fixed scheme text. -/
def devtoolsMarker : List Char :=
  String.toList "DevTools listening on ws://"

def wsSchemeChars : List Char :=
  String.toList "ws://"

/-- Leftmost match of the readiness regex against one stderr chunk: the
capture group is the scheme text followed by at least one further
non-line-terminator character, extending greedily to the end of the line.
Returns the captured URL of the leftmost successful match. -/
def scanCdpUrl : List Char → Option (List Char)
  | [] => none
  | c :: rest =>
    if devtoolsMarker.isPrefixOf (c :: rest) then
      match ((c :: rest).drop devtoolsMarker.length).takeWhile notLineTerm with
      | [] => scanCdpUrl rest
      | t => some (wsSchemeChars ++ t)
    else scanCdpUrl rest

/-- Events the spawned browser process can deliver while the readiness
promise is pending: a chunk on standard error, a spawn error, or process
exit (`none` = terminated by signal, which the exit handler ignores). -/
inductive ChildEvent
  | stderrData (text : List Char)
  | procError
  | exited (code : Option Int)
deriving DecidableEq, Repr

/-- How the readiness promise settles. -/
inductive ReadyOutcome
  | ready (url : List Char)
  | failedExit (code : Int)
  | failedSpawn
  | failedTimeout
deriving DecidableEq, Repr

structure ReadyResult where
  outcome : ReadyOutcome
  settleTime : Nat
  killedOnTimeout : Bool
deriving DecidableEq, Repr

/-- The readiness timer of `launchBrowser`. -/
def readinessTimeoutMs : Nat := 15000

/-- The readiness promise of `launchBrowser`: process timed child events in
arrival order, tracking whether the 15 s timer is still armed.  While the
timer is armed it fires before any event timestamped at or after it,
force-kills the process and rejects.  Every handler calls `clearTimeout`
unconditionally: a matching stderr chunk clears the timer and resolves, a
spawn error clears it and rejects, an exit with a non-null code clears it
and rejects — and an exit with a null code (termination by signal) clears
the timer *without settling*, because the source's reject is guarded by
`code !== null`.  `none` means the promise never settles. -/
def runReadinessFrom : Bool → List (Nat × ChildEvent) → Option ReadyResult
  | armed, [] =>
    if armed then
      some { outcome := ReadyOutcome.failedTimeout,
             settleTime := readinessTimeoutMs, killedOnTimeout := true }
    else none
  | armed, (t, e) :: rest =>
    if armed = true ∧ readinessTimeoutMs ≤ t then
      some { outcome := ReadyOutcome.failedTimeout,
             settleTime := readinessTimeoutMs, killedOnTimeout := true }
    else
      match e with
      | ChildEvent.stderrData text =>
        match scanCdpUrl text with
        | some url =>
          some { outcome := ReadyOutcome.ready url, settleTime := t,
                 killedOnTimeout := false }
        | none => runReadinessFrom armed rest
      | ChildEvent.procError =>
        some { outcome := ReadyOutcome.failedSpawn, settleTime := t,
               killedOnTimeout := false }
      | ChildEvent.exited (some code) =>
        some { outcome := ReadyOutcome.failedExit code, settleTime := t,
               killedOnTimeout := false }
      | ChildEvent.exited none => runReadinessFrom false rest

/-- The readiness promise of one `launchBrowser` call: the timer starts
armed. -/
def runReadiness (events : List (Nat × ChildEvent)) : Option ReadyResult :=
  runReadinessFrom true events

/-- JavaScript truthiness of the `CI` environment variable: present and not
the empty string. -/
def ciTruthy : Option String → Bool
  | none => false
  | some s => !(s = "")

/-- The fixed argument list `launchBrowser` builds for a Chromium-family
browser before the conditional flags. -/
def chromiumBaseArgs (port : Nat) (userDataDir : String) : List String :=
  ["--remote-debugging-port=" ++ toString port,
   "--user-data-dir=" ++ userDataDir,
   "--no-first-run",
   "--no-default-browser-check",
   "--disable-background-networking",
   "--disable-default-apps",
   "--disable-extensions",
   "--disable-sync",
   "--disable-translate",
   "--metrics-recording-only",
   "--mute-audio"]

/-- Full Chromium argument list: the sandbox flag is pushed when the `CI`
environment variable is truthy or `process.getuid` exists and reports 0,
the new-headless flag unless headless was explicitly disabled, and the
initial page last. -/
def chromiumLaunchArgs (port : Nat) (userDataDir : String)
    (ciVar : Option String) (uid : Option Nat) (headless : Option Bool) : List String :=
  let args1 :=
    if ciTruthy ciVar || uid == some 0 then
      chromiumBaseArgs port userDataDir ++ ["--no-sandbox"]
    else
      chromiumBaseArgs port userDataDir
  let args2 :=
    if headless == some false then args1 else args1 ++ ["--headless=new"]
  args2 ++ ["about:blank"]

/-- One call into the platform's networking layer, as issued by
`getFreePort`. -/
inductive NetAction
  | createServer
  | listenOn (port : Nat) (host : Option String)
  | readAddressPort (assigned : Nat)
  | closeServer
  | resolveValue (n : Nat)
deriving DecidableEq, Repr

/-- The platform-call trace of `getFreePort`, given the port the OS assigns
to the ephemeral listener: create a server, call `listen(0, cb)` — with no
host argument, so the listener is bound on the unspecified (all-interfaces)
address — read the assigned port from `address()`, close the listener, and
resolve with that port. -/
def getFreePortTrace (osAssignedPort : Nat) : List NetAction :=
  [NetAction.createServer,
   NetAction.listenOn 0 none,
   NetAction.readAddressPort osAssignedPort,
   NetAction.closeServer,
   NetAction.resolveValue osAssignedPort]

/-- What the design document says `getFreePort` should do: the same trace,
except that the temporary listener is bound on the loopback interface. -/
def getFreePortSpecTrace (osAssignedPort : Nat) : List NetAction :=
  [NetAction.createServer,
   NetAction.listenOn 0 (some "127.0.0.1"),
   NetAction.readAddressPort osAssignedPort,
   NetAction.closeServer,
   NetAction.resolveValue osAssignedPort]

/- ============ Definitions: browser detector ============================= -/

/-- A detected browser (`BrowserInfo` in the source); the kind tag is kept
as the source's string literal. -/
structure BrowserInfo where
  name : String
  type : String
  path : String
  supportsCDP : Bool
deriving DecidableEq, Repr

/-- `String.prototype.includes` on character lists. -/
def listContainsChars (sub : List Char) : List Char → Bool
  | [] => sub.isEmpty
  | c :: rest => sub.isPrefixOf (c :: rest) || listContainsChars sub rest

def strIncludes (s sub : String) : Bool :=
  listContainsChars sub.toList s.toList

/-- `charAt(0).toUpperCase() + slice(1)`. -/
def capitalizeStr (s : String) : String :=
  match s.toList with
  | [] => ""
  | c :: rest => String.mk (c.toUpper :: rest)

def formatName (ty p : String) : String :=
  if strIncludes p "Canary" then "Google Chrome Canary"
  else if strIncludes p "Beta" || strIncludes p "beta" then capitalizeStr ty ++ " Beta"
  else capitalizeStr ty

/-- The platform-keyed candidate-path table, in object insertion order. -/
def browserPathsDarwin : List (String × List String) :=
  [("chrome",
    ["/Applications/Google Chrome.app/Contents/MacOS/Google Chrome",
     "/Applications/Google Chrome Canary.app/Contents/MacOS/Google Chrome Canary"]),
   ("edge",
    ["/Applications/Microsoft Edge.app/Contents/MacOS/Microsoft Edge"]),
   ("chromium",
    ["/Applications/Chromium.app/Contents/MacOS/Chromium"]),
   ("brave",
    ["/Applications/Brave Browser.app/Contents/MacOS/Brave Browser"])]

def browserPathsLinux : List (String × List String) :=
  [("chrome",
    ["/usr/bin/google-chrome", "/usr/bin/google-chrome-stable",
     "/usr/bin/google-chrome-beta", "/usr/bin/google-chrome-unstable"]),
   ("edge",
    ["/usr/bin/microsoft-edge", "/usr/bin/microsoft-edge-stable"]),
   ("chromium",
    ["/usr/bin/chromium", "/usr/bin/chromium-browser", "/snap/bin/chromium"]),
   ("brave",
    ["/usr/bin/brave-browser"])]

def browserPathsWin32 (localAppData : String) : List (String × List String) :=
  [("chrome",
    ["C:\\Program Files\\Google\\Chrome\\Application\\chrome.exe",
     "C:\\Program Files (x86)\\Google\\Chrome\\Application\\chrome.exe",
     localAppData ++ "\\Google\\Chrome\\Application\\chrome.exe"]),
   ("edge",
    ["C:\\Program Files (x86)\\Microsoft\\Edge\\Application\\msedge.exe",
     "C:\\Program Files\\Microsoft\\Edge\\Application\\msedge.exe"]),
   ("chromium",
    [localAppData ++ "\\Chromium\\Application\\chrome.exe"]),
   ("brave",
    ["C:\\Program Files\\BraveSoftware\\Brave-Browser\\Application\\brave.exe",
     localAppData ++ "\\BraveSoftware\\Brave-Browser\\Application\\brave.exe"])]

def browserPathsFor (os localAppData : String) :
    Option (List (String × List String)) :=
  if os = "darwin" then some browserPathsDarwin
  else if os = "linux" then some browserPathsLinux
  else if os = "win32" then some (browserPathsWin32 localAppData)
  else none

def mkDetected (ty p : String) : BrowserInfo :=
  { name := formatName ty p, type := ty, path := p, supportsCDP := !(ty = "firefox") }

/-- Path-table walk of `detectBrowsers`: for each kind, take the first
candidate path that exists. -/
def detectFromPaths (fsExists : String → Bool)
    (paths : List (String × List String)) : List BrowserInfo :=
  paths.filterMap (fun entry =>
    match entry.2.find? fsExists with
    | some p => some (mkDetected entry.1 p)
    | none => none)

def whichFallbackCmds : List String :=
  ["google-chrome", "chromium", "chromium-browser", "microsoft-edge"]

def classifyWhichCmd (cmd : String) : String :=
  if strIncludes cmd "edge" then "edge"
  else if strIncludes cmd "chromium" then "chromium"
  else "chrome"

/-- The `which` fallback on POSIX: the first command that resolves to a
non-empty trimmed path yields one descriptor; resolution failures are
skipped.  `which cmd = none` models a thrown `execSync` error. -/
def whichFallback (which : String → Option String) : List String → List BrowserInfo
  | [] => []
  | cmd :: rest =>
    match which cmd with
    | some p =>
      if p = "" then whichFallback which rest
      else [{ name := cmd, type := classifyWhichCmd cmd, path := p, supportsCDP := true }]
    | none => whichFallback which rest

/-- `detectBrowsers()`, parameterised by the platform name, the
`LOCALAPPDATA` environment value, the filesystem existence test and the
`which` shell resolution. -/
def detectBrowsers (os localAppData : String) (fsExists : String → Bool)
    (which : String → Option String) : List BrowserInfo :=
  match browserPathsFor os localAppData with
  | none => []
  | some paths =>
    let found := detectFromPaths fsExists paths
    if os ≠ "win32" ∧ found = [] then whichFallback which whichFallbackCmds
    else found

/-- The predicate used by `findBrowser`: matching kind with CDP support. -/
def cdpCapableOf (t : String) (b : BrowserInfo) : Bool :=
  b.type == t && b.supportsCDP

def priorityOrder : List String := ["chrome", "edge", "chromium", "brave"]

/-- The preference loop of `findBrowser`. -/
def findByPriority (bs : List BrowserInfo) : List String → Option BrowserInfo
  | [] => none
  | t :: rest =>
    match bs.find? (cdpCapableOf t) with
    | some m => some m
    | none => findByPriority bs rest

/-- `findBrowser(preferredType?)` over an already-detected list: empty list
gives `null`; a given preferred kind is looked up first; then the priority
order; then any CDP-capable entry. -/
def findBrowser (bs : List BrowserInfo) (preferredType : Option String) :
    Option BrowserInfo :=
  if bs = [] then none
  else
    match (match preferredType with
           | some p => bs.find? (cdpCapableOf p)
           | none => none) with
    | some m => some m
    | none =>
      match findByPriority bs priorityOrder with
      | some m => some m
      | none => bs.find? (fun b => b.supportsCDP)

/-- Concrete filesystem for the C5 witness: only the stable Linux Chrome
path exists. -/
def demoFs : String → Bool :=
  fun q => q == "/usr/bin/google-chrome"

/-- Concrete `which` for the C5 witness: nothing resolves. -/
def demoWhich : String → Option String :=
  fun _ => none

/- ============ Definitions: JSON layer and rendezvous state ============== -/

/-- JSON values, with numbers as rationals (JavaScript numbers: `1.5` is as
good a JSON number as `2`).  The platform serialiser and parser are
abstracted: a well-formed document is a `Json` value, and parsing a
serialised document recovers it. -/
inductive Json
  | null
  | bool (b : Bool)
  | num (q : ℚ)
  | str (s : String)
  | arr (elems : List Json)
  | obj (fields : List (String × Json))

/-- The last binding of a key in an object's field list (`JSON.parse`
duplicate-key semantics); `undefined` on anything that is not an object. -/
def lookupLast (k : String) : List (String × Json) → Option Json
  | [] => none
  | f :: rest =>
    match lookupLast k rest with
    | some v => some v
    | none => if f.1 = k then some f.2 else none

def Json.getField (j : Json) (k : String) : Option Json :=
  match j with
  | Json.obj fields => lookupLast k fields
  | _ => none

/-- The contents of the rendezvous state file: absent, present but not
valid JSON, or a parsed JSON document. -/
inductive FileContent
  | absent
  | malformed
  | json (j : Json)

/-- `CoordinatorState`: the record written to the state file.  Fields are
JavaScript numbers, hence rationals here. -/
structure CoordinatorState where
  port : ℚ
  pid : ℚ
deriving DecidableEq, Repr

/-- `JSON.stringify({port, pid})`: an object document with the two fields in
declaration order. -/
def encodeState (s : CoordinatorState) : Json :=
  Json.obj [("port", Json.num s.port), ("pid", Json.num s.pid)]

/-- `writeState`: create the directory and overwrite the file with the
serialised record. -/
def writeState (s : CoordinatorState) : FileContent :=
  FileContent.json (encodeState s)

/-- `readState`: `null` when the file is absent or `JSON.parse` throws;
otherwise the parsed value is accepted exactly when `typeof state.port` and
`typeof state.pid` are both `"number"`. -/
def readState : FileContent → Option CoordinatorState
  | FileContent.absent => none
  | FileContent.malformed => none
  | FileContent.json j =>
    match Json.getField j "port", Json.getField j "pid" with
    | some (Json.num p), some (Json.num q) => some { port := p, pid := q }
    | _, _ => none

/-- `clearState`: best-effort unlink. -/
def clearState : FileContent → FileContent :=
  fun _ => FileContent.absent

/-- A state file whose `port` field is a number but not an integer. -/
def halfPortFile : FileContent :=
  FileContent.json (Json.obj [("port", Json.num ((3 : ℚ) / 2)), ("pid", Json.num 2)])

/- ============ Definitions: IPC client (ipc-socket.ts) =================== -/

/-- Events delivered to `sendIpcRequest`'s socket: connection established
(the request line is written), a data chunk, an error, or close. -/
inductive SockEvent
  | connected
  | dataChunk (chunk : List Char)
  | errorEvt
  | closeEvt

/-- How the promise returned by `sendIpcRequest` settles. -/
inductive IpcOutcome
  | okResp (j : Json)
  | timedOut
  | socketError
  | closedBeforeNewline
  | badJson (line : List Char)

structure IpcRunResult where
  outcome : IpcOutcome
  destroyedSocket : Bool

/-- `data.indexOf("\n") !== -1`: the accumulated data contains a newline. -/
def hasNl (l : List Char) : Bool :=
  l.any (fun c => c == '\n')

/-- `data.slice(0, newlineIdx)`. -/
def firstLine (l : List Char) : List Char :=
  l.takeWhile (fun c => !(c = '\n'))

def defaultIpcTimeoutMs : Nat := 5000

/-- The event loop of one `sendIpcRequest` call, given the platform JSON
parser, the timeout, the timed socket events in arrival order, and the data
accumulated so far.  The timer fires before any event at or after the
timeout and destroys the socket; the first chunk completing a line clears
the timer, destroys the socket and settles by parsing the line; an error
event rejects; a close event before a complete line rejects; an exhausted
event list leaves only the timer. -/
def runIpc (parse : List Char → Option Json) (timeoutMs : Nat) :
    List (Nat × SockEvent) → List Char → IpcRunResult
  | [], _ => { outcome := IpcOutcome.timedOut, destroyedSocket := true }
  | (t, ev) :: rest, acc =>
    if timeoutMs ≤ t then
      { outcome := IpcOutcome.timedOut, destroyedSocket := true }
    else
      match ev with
      | SockEvent.connected => runIpc parse timeoutMs rest acc
      | SockEvent.dataChunk c =>
        if hasNl (acc ++ c) then
          match parse (firstLine (acc ++ c)) with
          | some j => { outcome := IpcOutcome.okResp j, destroyedSocket := true }
          | none =>
            { outcome := IpcOutcome.badJson (firstLine (acc ++ c)),
              destroyedSocket := true }
        else runIpc parse timeoutMs rest (acc ++ c)
      | SockEvent.errorEvt =>
        { outcome := IpcOutcome.socketError, destroyedSocket := false }
      | SockEvent.closeEvt =>
        if hasNl acc then runIpc parse timeoutMs rest acc
        else { outcome := IpcOutcome.closedBeforeNewline, destroyedSocket := false }

/-- An event at which the promise is still pending afterwards: it arrives
before the timeout and is the connect callback or a chunk. -/
def quietEvt (timeoutMs : Nat) (e : Nat × SockEvent) : Prop :=
  e.1 < timeoutMs ∧ (e.2 = SockEvent.connected ∨ ∃ c, e.2 = SockEvent.dataChunk c)

/-- Concatenation of all data chunks of an event list, in order. -/
def dataOf (events : List (Nat × SockEvent)) : List Char :=
  events.foldr
    (fun e acc =>
      match e.2 with
      | SockEvent.dataChunk c => c ++ acc
      | _ => acc) []

/-- A prefix of the event stream after which the promise is still pending:
only quiet events, and the data received so far has no newline. -/
def quietPre (timeoutMs : Nat) (pre : List (Nat × SockEvent)) : Prop :=
  (∀ e ∈ pre, quietEvt timeoutMs e) ∧ hasNl (dataOf pre) = false

/- ============ Definitions: coordinator controller ======================= -/

/-- An IPC response envelope (`IpcResponse` in `ipc-types`): the `type`
field is an arbitrary string — `"ok"`, `"state"` or `"error"`. -/
structure IpcResponse where
  id : String
  type : String
  payload : Option Json

/-- `CoordinatorServer.sendIpc`: no socket path means `false`; otherwise one
request is sent and, on rejection, retried once.  `none` models a rejected
`sendIpcRequest` promise, `some r` a response — of any type.  The function
reports success whenever either attempt yields a response; the response's
`type` field is never inspected. -/
def sendIpc (ipcSocketPath : Option String)
    (attempt1 attempt2 : Option IpcResponse) : Bool :=
  match ipcSocketPath with
  | none => false
  | some _ =>
    match attempt1 with
    | some _ => true
    | none =>
      match attempt2 with
      | some _ => true
      | none => false

/-- The part of `vsCodeEnv` that `coordinator_navigate` touches. -/
structure VsCodeEnvState where
  ipcSocketPath : Option String
  activeBrowserUrl : Option String
deriving DecidableEq, Repr

/-- Result of the `coordinator_navigate` tool handler. -/
inductive NavigateResult
  | errMissingUrl
  | vscodeNavigated (url : String)
  | cdpFallback
deriving DecidableEq, Repr

/-- `coordinator_navigate`: a falsy url is an error; with an extension
socket the IPC path is tried first and, when `sendIpc` reports success, the
url is recorded as the active browser URL and navigation is reported as
successful; otherwise the handler falls back to a CDP navigation. -/
def coordinatorNavigate (env : VsCodeEnvState) (url : String)
    (attempt1 attempt2 : Option IpcResponse) : VsCodeEnvState × NavigateResult :=
  if url = "" then (env, NavigateResult.errMissingUrl)
  else
    match env.ipcSocketPath with
    | some _ =>
      if sendIpc env.ipcSocketPath attempt1 attempt2 then
        ({ env with activeBrowserUrl := some url }, NavigateResult.vscodeNavigated url)
      else (env, NavigateResult.cdpFallback)
    | none => (env, NavigateResult.cdpFallback)

/- ===================== Theorems ========================================= -/

theorem applyOp_listenPort (s : ProxyState) (op : ProxyOp) :
    (applyOp s op).listenPort = s.listenPort := by
  cases op <;>
    simp only [applyOp, handleConnect, handleLaunchResolve, handleLaunchFail] <;>
    (repeat' split) <;> rfl

theorem applyOps_listenPort (ops : List ProxyOp) :
    ∀ s : ProxyState, (applyOps s ops).listenPort = s.listenPort := by
  induction ops with
  | nil => intro s; rfl
  | cons op rest ih =>
    intro s
    have h1 : applyOps s (op :: rest) = applyOps (applyOp s op) rest := rfl
    rw [h1, ih, applyOp_listenPort]

/-- C1: after a successful `listen()` recorded the bound port, every sequence
of proxy operations (`set_backend`, `clear_backend`, `close_connections`,
`close`, connection handling, launch resolution, socket closes) leaves
`port()` returning that same bound port: no operation other than `listen()`
changes the recorded listen port. -/
theorem c1_listen_port_stable (s0 : ProxyState) (boundPort : Nat)
    (ops : List ProxyOp) :
    proxyGetPort (applyOps (proxyListen s0 boundPort) ops) = boundPort := by
  have h := applyOps_listenPort ops (proxyListen s0 boundPort)
  simpa [proxyGetPort, proxyListen] using h

theorem connect_while_launching (s : ProxyState) (id : Nat)
    (hb : s.backendPort = none) (hcb : s.hasLazyLaunch = true)
    (hl : s.launching = true) :
    handleConnect s id =
      { s with connections := insertSock s.connections (Sock.client id),
               launchAwaiters := id :: s.launchAwaiters } := by
  simp [handleConnect, hb, hcb, hl]

theorem connect_first_launch (s : ProxyState) (id : Nat)
    (hb : s.backendPort = none) (hcb : s.hasLazyLaunch = true)
    (hl : s.launching = false) :
    handleConnect s id =
      { s with connections := insertSock s.connections (Sock.client id),
               launching := true, launchCount := s.launchCount + 1,
               launchAwaiters := [id] } := by
  simp [handleConnect, hb, hcb, hl]

theorem connects_during_launch (ids : List Nat) :
    ∀ s : ProxyState, s.backendPort = none → s.hasLazyLaunch = true →
      s.launching = true →
      (applyOps s (ids.map ProxyOp.connect)).launchCount = s.launchCount ∧
      (applyOps s (ids.map ProxyOp.connect)).launchAwaiters =
        ids.reverse ++ s.launchAwaiters ∧
      (applyOps s (ids.map ProxyOp.connect)).backendPort = none ∧
      (applyOps s (ids.map ProxyOp.connect)).hasLazyLaunch = true ∧
      (applyOps s (ids.map ProxyOp.connect)).launching = true := by
  induction ids with
  | nil => intro s hb hcb hl; exact ⟨rfl, by simp [applyOps], hb, hcb, hl⟩
  | cons id rest ih =>
    intro s hb hcb hl
    have hstep : applyOps s ((id :: rest).map ProxyOp.connect) =
        applyOps (handleConnect s id) (rest.map ProxyOp.connect) := rfl
    rw [hstep, connect_while_launching s id hb hcb hl]
    have ih2 := ih { s with
        connections := insertSock s.connections (Sock.client id),
        launchAwaiters := id :: s.launchAwaiters } hb hcb hl
    refine ⟨ih2.1, ?_, ih2.2.2.1, ih2.2.2.2.1, ih2.2.2.2.2⟩
    rw [ih2.2.1]
    simp

theorem connect_seq_summary (boundPort : Nat) (id : Nat) (rest : List Nat) :
    (applyOps (lazyInitProxy boundPort) ((id :: rest).map ProxyOp.connect)).launchCount = 1 ∧
    (applyOps (lazyInitProxy boundPort) ((id :: rest).map ProxyOp.connect)).launchAwaiters =
      (id :: rest).reverse ∧
    (applyOps (lazyInitProxy boundPort) ((id :: rest).map ProxyOp.connect)).launching = true := by
  have hstep : applyOps (lazyInitProxy boundPort) ((id :: rest).map ProxyOp.connect) =
      applyOps (handleConnect (lazyInitProxy boundPort) id) (rest.map ProxyOp.connect) := rfl
  have hfirst := connect_first_launch (lazyInitProxy boundPort) id rfl rfl rfl
  have hb : (handleConnect (lazyInitProxy boundPort) id).backendPort = none := by
    rw [hfirst] <;> rfl
  have hc : (handleConnect (lazyInitProxy boundPort) id).hasLazyLaunch = true := by
    rw [hfirst] <;> rfl
  have hl : (handleConnect (lazyInitProxy boundPort) id).launching = true := by
    rw [hfirst] <;> rfl
  have hcount : (handleConnect (lazyInitProxy boundPort) id).launchCount = 1 := by
    rw [hfirst] <;> rfl
  have haw : (handleConnect (lazyInitProxy boundPort) id).launchAwaiters = [id] := by
    rw [hfirst] <;> rfl
  have h := connects_during_launch rest (handleConnect (lazyInitProxy boundPort) id) hb hc hl
  refine ⟨?_, ?_, ?_⟩
  · rw [hstep, h.1, hcount]
  · rw [hstep, h.2.1, haw]
    simp
  · rw [hstep]
    exact h.2.2.2.2

/-- C2: starting from a freshly listening proxy with a lazy-launch callback
and no backend, for any `N ≥ 2` connections that arrive while the launch is
pending, the callback is invoked exactly once (`launchCount = 1`), every
connection awaits the one pending launch (`launchAwaiters` collects them
all), and along every prefix of the arrivals at most one launch has been
started. -/
theorem c2_single_flight_launch (boundPort : Nat) (ids : List Nat)
    (hlen : 2 ≤ ids.length) :
    (applyOps (lazyInitProxy boundPort) (ids.map ProxyOp.connect)).launchCount = 1 ∧
    (applyOps (lazyInitProxy boundPort) (ids.map ProxyOp.connect)).launchAwaiters =
      ids.reverse ∧
    (applyOps (lazyInitProxy boundPort) (ids.map ProxyOp.connect)).launching = true ∧
    (∀ pre suf : List Nat, ids = pre ++ suf →
      (applyOps (lazyInitProxy boundPort) (pre.map ProxyOp.connect)).launchCount ≤ 1) := by
  obtain ⟨id, rest, hids⟩ : ∃ id rest, ids = id :: rest := by
    cases ids with
    | nil => simp at hlen
    | cons a b => exact ⟨a, b, rfl⟩
  subst hids
  have h := connect_seq_summary boundPort id rest
  refine ⟨h.1, h.2.1, h.2.2, ?_⟩
  intro pre _ _
  cases pre with
  | nil => exact Nat.zero_le 1
  | cons p prest => exact Nat.le_of_eq (connect_seq_summary boundPort p prest).1

/-- C2 witness: two concrete connections share one launch. -/
theorem c2_single_flight_launch_witness :
    (applyOps (lazyInitProxy 41837) ([3, 4].map ProxyOp.connect)).launchCount = 1 :=
  (c2_single_flight_launch 41837 [3, 4] (by decide)).1

/-- C3 counterexample: in a reachable proxy state with one open connection
pair, `clearBackend()` clears the backend port but the connection set is not
empty afterwards, refuting the claim that clearing the backend closes all
connection pairs. -/
theorem c3_counterexample_clear_backend_keeps_connections :
    clearBackendDemo.backendPort = none ∧ clearBackendDemo.connections ≠ [] := by
  constructor
  · rfl
  · decide

/-- C3 (amended): `closeConnections()` empties the proxy's set of open
connection pairs; `clearBackend()` only clears the backend port and leaves
the connection set untouched.  (In the controller, stopping the browser
calls `clearBackend` and then `closeConnections`.) -/
theorem c3_close_connections_empties_set (s : ProxyState) :
    (applyOp s ProxyOp.closeConnections).connections = [] ∧
    (applyOp s ProxyOp.clearBackend).backendPort = none ∧
    (applyOp s ProxyOp.clearBackend).connections = s.connections :=
  ⟨rfl, rfl, rfl⟩

theorem rrf_armed_no_line (events : List (Nat × ChildEvent))
    (hline : ∀ t text, (t, ChildEvent.stderrData text) ∈ events →
      scanCdpUrl text = none)
    (hsig : ∀ t, (t, ChildEvent.exited none) ∉ events) :
    ∃ r, runReadinessFrom true events = some r ∧
      (∀ url, r.outcome ≠ ReadyOutcome.ready url) ∧
      r.settleTime ≤ readinessTimeoutMs ∧
      (r.outcome = ReadyOutcome.failedTimeout → r.killedOnTimeout = true) := by
  induction events with
  | nil =>
    refine ⟨_, rfl, ?_, le_refl _, fun _ => rfl⟩
    intro url
    simp
  | cons ev rest ih =>
    obtain ⟨t, e⟩ := ev
    by_cases ht : readinessTimeoutMs ≤ t
    · have hstep : runReadinessFrom true ((t, e) :: rest) =
          some { outcome := ReadyOutcome.failedTimeout,
                 settleTime := readinessTimeoutMs, killedOnTimeout := true } := by
        simp [runReadinessFrom, ht]
      refine ⟨_, hstep, ?_, le_refl _, fun _ => rfl⟩
      intro url
      simp
    · have hlt : t < readinessTimeoutMs := by omega
      cases e with
      | stderrData text =>
        have hnone : scanCdpUrl text = none := hline t text (List.mem_cons_self _ _)
        have hstep : runReadinessFrom true ((t, ChildEvent.stderrData text) :: rest) =
            runReadinessFrom true rest := by
          simp [runReadinessFrom, ht, hnone]
        rw [hstep]
        exact ih (fun u tx hm => hline u tx (List.mem_cons_of_mem _ hm))
          (fun u hm => hsig u (List.mem_cons_of_mem _ hm))
      | procError =>
        have hstep : runReadinessFrom true ((t, ChildEvent.procError) :: rest) =
            some { outcome := ReadyOutcome.failedSpawn, settleTime := t,
                   killedOnTimeout := false } := by
          simp [runReadinessFrom, ht]
        refine ⟨_, hstep, ?_, le_of_lt hlt, ?_⟩
        · intro url
          simp
        · intro h
          simp at h
      | exited code =>
        cases code with
        | none => exact absurd (List.mem_cons_self _ _) (hsig t)
        | some c =>
          have hstep : runReadinessFrom true
              ((t, ChildEvent.exited (some c)) :: rest) =
              some { outcome := ReadyOutcome.failedExit c, settleTime := t,
                     killedOnTimeout := false } := by
            simp [runReadinessFrom, ht]
          refine ⟨_, hstep, ?_, le_of_lt hlt, ?_⟩
          · intro url
            simp
          · intro h
            simp at h

theorem rrf_exit_fails (pre : List (Nat × ChildEvent)) (t : Nat) (code : Int)
    (post : List (Nat × ChildEvent))
    (hline : ∀ u text, (u, ChildEvent.stderrData text) ∈ pre →
      scanCdpUrl text = none)
    (hsig : ∀ u, (u, ChildEvent.exited none) ∉ pre) :
    ∃ r, runReadinessFrom true
        (pre ++ (t, ChildEvent.exited (some code)) :: post) = some r ∧
      ∀ url, r.outcome ≠ ReadyOutcome.ready url := by
  induction pre with
  | nil =>
    by_cases ht : readinessTimeoutMs ≤ t
    · have hstep : runReadinessFrom true
          ([] ++ (t, ChildEvent.exited (some code)) :: post) =
          some { outcome := ReadyOutcome.failedTimeout,
                 settleTime := readinessTimeoutMs, killedOnTimeout := true } := by
        simp [runReadinessFrom, ht]
      refine ⟨_, hstep, ?_⟩
      intro url
      simp
    · have hstep : runReadinessFrom true
          ([] ++ (t, ChildEvent.exited (some code)) :: post) =
          some { outcome := ReadyOutcome.failedExit code, settleTime := t,
                 killedOnTimeout := false } := by
        simp [runReadinessFrom, ht]
      refine ⟨_, hstep, ?_⟩
      intro url
      simp
  | cons ev rest ih =>
    obtain ⟨u, e⟩ := ev
    by_cases hu : readinessTimeoutMs ≤ u
    · have hstep : runReadinessFrom true (((u, e) :: rest) ++
          (t, ChildEvent.exited (some code)) :: post) =
          some { outcome := ReadyOutcome.failedTimeout,
                 settleTime := readinessTimeoutMs, killedOnTimeout := true } := by
        simp [runReadinessFrom, hu]
      refine ⟨_, hstep, ?_⟩
      intro url
      simp
    · cases e with
      | stderrData text =>
        have hnone : scanCdpUrl text = none := hline u text (List.mem_cons_self _ _)
        have hstep : runReadinessFrom true (((u, ChildEvent.stderrData text) :: rest) ++
            (t, ChildEvent.exited (some code)) :: post) =
            runReadinessFrom true (rest ++ (t, ChildEvent.exited (some code)) :: post) := by
          simp [runReadinessFrom, hu, hnone]
        rw [hstep]
        exact ih (fun v tx hm => hline v tx (List.mem_cons_of_mem _ hm))
          (fun v hm => hsig v (List.mem_cons_of_mem _ hm))
      | procError =>
        have hstep : runReadinessFrom true (((u, ChildEvent.procError) :: rest) ++
            (t, ChildEvent.exited (some code)) :: post) =
            some { outcome := ReadyOutcome.failedSpawn, settleTime := u,
                   killedOnTimeout := false } := by
          simp [runReadinessFrom, hu]
        refine ⟨_, hstep, ?_⟩
        intro url
        simp
      | exited c =>
        cases c with
        | none => exact absurd (List.mem_cons_self _ _) (hsig u)
        | some c2 =>
          have hstep : runReadinessFrom true
              (((u, ChildEvent.exited (some c2)) :: rest) ++
                (t, ChildEvent.exited (some code)) :: post) =
              some { outcome := ReadyOutcome.failedExit c2, settleTime := u,
                     killedOnTimeout := false } := by
            simp [runReadinessFrom, hu]
          refine ⟨_, hstep, ?_⟩
          intro url
          simp

theorem rrf_disarmed_pending (events : List (Nat × ChildEvent))
    (hline : ∀ t text, (t, ChildEvent.stderrData text) ∈ events →
      scanCdpUrl text = none)
    (herr : ∀ t, (t, ChildEvent.procError) ∉ events)
    (hexit : ∀ t c, (t, ChildEvent.exited (some c)) ∉ events) :
    runReadinessFrom false events = none := by
  induction events with
  | nil => rfl
  | cons ev rest ih =>
    obtain ⟨t, e⟩ := ev
    cases e with
    | stderrData text =>
      have hnone : scanCdpUrl text = none := hline t text (List.mem_cons_self _ _)
      have hstep : runReadinessFrom false ((t, ChildEvent.stderrData text) :: rest) =
          runReadinessFrom false rest := by
        simp [runReadinessFrom, hnone]
      rw [hstep]
      exact ih (fun u tx hm => hline u tx (List.mem_cons_of_mem _ hm))
        (fun u hm => herr u (List.mem_cons_of_mem _ hm))
        (fun u c hm => hexit u c (List.mem_cons_of_mem _ hm))
    | procError => exact absurd (List.mem_cons_self _ _) (herr t)
    | exited c =>
      cases c with
      | some c2 => exact absurd (List.mem_cons_self _ _) (hexit t c2)
      | none =>
        have hstep : runReadinessFrom false ((t, ChildEvent.exited none) :: rest) =
            runReadinessFrom false rest := by
          simp [runReadinessFrom]
        rw [hstep]
        exact ih (fun u tx hm => hline u tx (List.mem_cons_of_mem _ hm))
          (fun u hm => herr u (List.mem_cons_of_mem _ hm))
          (fun u c hm => hexit u c (List.mem_cons_of_mem _ hm))

theorem rrf_armed_quiet (pre : List (Nat × ChildEvent))
    (hline : ∀ t text, (t, ChildEvent.stderrData text) ∈ pre →
      scanCdpUrl text = none)
    (herr : ∀ t, (t, ChildEvent.procError) ∉ pre)
    (hexit : ∀ t c, (t, ChildEvent.exited c) ∉ pre)
    (htime : ∀ e ∈ pre, e.1 < readinessTimeoutMs) :
    ∀ rest, runReadinessFrom true (pre ++ rest) = runReadinessFrom true rest := by
  induction pre with
  | nil => intro rest; rfl
  | cons ev rest2 ih =>
    obtain ⟨t, e⟩ := ev
    intro rest
    have ht : t < readinessTimeoutMs := htime (t, e) (List.mem_cons_self _ _)
    have hnt : ¬ readinessTimeoutMs ≤ t := by omega
    cases e with
    | stderrData text =>
      have hnone : scanCdpUrl text = none := hline t text (List.mem_cons_self _ _)
      have hstep : runReadinessFrom true (((t, ChildEvent.stderrData text) :: rest2) ++ rest) =
          runReadinessFrom true (rest2 ++ rest) := by
        simp [runReadinessFrom, hnt, hnone]
      rw [hstep]
      exact ih (fun u tx hm => hline u tx (List.mem_cons_of_mem _ hm))
        (fun u hm => herr u (List.mem_cons_of_mem _ hm))
        (fun u c hm => hexit u c (List.mem_cons_of_mem _ hm))
        (fun x hx => htime x (List.mem_cons_of_mem _ hx)) rest
    | procError => exact absurd (List.mem_cons_self _ _) (herr t)
    | exited c => exact absurd (List.mem_cons_self _ _) (hexit t c)

/-- C4 counterexample: a child terminated by a signal before producing any
readiness output delivers an exit event with a null code; the source's exit
handler clears the 15 s timer unconditionally but rejects only for non-null
codes, so the readiness promise never settles — the launch neither fails
within 15 seconds nor force-kills anything, refuting the claim as stated. -/
theorem c4_counterexample_signal_exit_hangs :
    (∀ t text, (t, ChildEvent.stderrData text) ∈
        [((5 : Nat), ChildEvent.exited (none : Option Int))] →
      scanCdpUrl text = none) ∧
    runReadiness [((5 : Nat), ChildEvent.exited (none : Option Int))] = none := by
  constructor
  · intro t text hm
    simp at hm
  · rfl

/-- C4 (amended): when the spawned process emits no readiness line on
standard error and is not terminated by a signal, the readiness promise of
`launchBrowser` settles in failure no later than the 15000 ms timer, and
when it is the timer that fires the process is force-killed; an exit with a
non-null code before any readiness match likewise makes the launch fail.
An exit with a null code (signal termination), however, clears the
readiness timer without settling the promise, so such a launch hangs
instead of failing. -/
theorem c4_readiness_timeout_and_exit :
    (∀ events : List (Nat × ChildEvent),
      (∀ t text, (t, ChildEvent.stderrData text) ∈ events →
        scanCdpUrl text = none) →
      (∀ t, (t, ChildEvent.exited none) ∉ events) →
      ∃ r, runReadiness events = some r ∧
        (∀ url, r.outcome ≠ ReadyOutcome.ready url) ∧
        r.settleTime ≤ readinessTimeoutMs ∧
        (r.outcome = ReadyOutcome.failedTimeout → r.killedOnTimeout = true)) ∧
    (∀ (pre : List (Nat × ChildEvent)) (t : Nat) (code : Int)
        (post : List (Nat × ChildEvent)),
      (∀ u text, (u, ChildEvent.stderrData text) ∈ pre →
        scanCdpUrl text = none) →
      (∀ u, (u, ChildEvent.exited none) ∉ pre) →
      ∃ r, runReadiness (pre ++ (t, ChildEvent.exited (some code)) :: post) =
          some r ∧ ∀ url, r.outcome ≠ ReadyOutcome.ready url) ∧
    (∀ (pre : List (Nat × ChildEvent)) (t : Nat)
        (post : List (Nat × ChildEvent)),
      (∀ u text, (u, ChildEvent.stderrData text) ∈ pre →
        scanCdpUrl text = none) →
      (∀ u, (u, ChildEvent.procError) ∉ pre) →
      (∀ u c, (u, ChildEvent.exited c) ∉ pre) →
      (∀ e ∈ pre, e.1 < readinessTimeoutMs) →
      t < readinessTimeoutMs →
      (∀ u text, (u, ChildEvent.stderrData text) ∈ post →
        scanCdpUrl text = none) →
      (∀ u, (u, ChildEvent.procError) ∉ post) →
      (∀ u c, (u, ChildEvent.exited (some c)) ∉ post) →
      runReadiness (pre ++ (t, ChildEvent.exited none) :: post) = none) := by
  refine ⟨rrf_armed_no_line, rrf_exit_fails, ?_⟩
  intro pre t post h1 h2 h3 h4 ht h5 h6 h7
  have hq := rrf_armed_quiet pre h1 h2 h3 h4 ((t, ChildEvent.exited none) :: post)
  have hnt : ¬ readinessTimeoutMs ≤ t := by omega
  have hstep : runReadinessFrom true ((t, ChildEvent.exited none) :: post) =
      runReadinessFrom false post := by
    simp [runReadinessFrom, hnt]
  rw [runReadiness, hq, hstep]
  exact rrf_disarmed_pending post h5 h6 h7

/-- C4 witness: a stub emitting one non-matching chunk fails by the timer
with a force-kill; a stub exiting with code 1 fails; a stub that is
signal-killed after one quiet chunk leaves the promise pending forever. -/
theorem c4_readiness_witness :
    (∃ r, runReadiness
        [((10 : Nat), ChildEvent.stderrData (String.toList "Opening session"))] =
        some r ∧
      (∀ url, r.outcome ≠ ReadyOutcome.ready url) ∧
      r.settleTime ≤ readinessTimeoutMs ∧
      (r.outcome = ReadyOutcome.failedTimeout → r.killedOnTimeout = true)) ∧
    (∃ r, runReadiness [((5 : Nat), ChildEvent.exited (some 1))] = some r ∧
      ∀ url, r.outcome ≠ ReadyOutcome.ready url) ∧
    runReadiness [((3 : Nat), ChildEvent.stderrData (String.toList "x")),
      ((5 : Nat), ChildEvent.exited (none : Option Int))] = none := by
  refine ⟨?_, ?_, ?_⟩
  · refine c4_readiness_timeout_and_exit.1 _ ?_ ?_
    · intro t text hm
      simp at hm
      rw [hm.2]
      decide
    · intro t hm
      simp at hm
  · refine c4_readiness_timeout_and_exit.2.1 [] 5 1 [] ?_ ?_
    · intro u text hm
      simp at hm
    · intro u hm
      simp at hm
  · refine c4_readiness_timeout_and_exit.2.2
      [(3, ChildEvent.stderrData (String.toList "x"))] 5 [] ?_ ?_ ?_ ?_ ?_ ?_ ?_ ?_
    · intro u text hm
      simp at hm
      rw [hm.2]
      decide
    · intro u hm
      simp at hm
    · intro u c hm
      simp at hm
    · intro e he
      simp at he
      rw [he]
      norm_num [readinessTimeoutMs]
    · norm_num [readinessTimeoutMs]
    · intro u text hm
      simp at hm
    · intro u hm
      simp at hm
    · intro u c hm
      simp at hm

theorem string_append_ne_of_not_prefixed (a s t : String)
    (h : a.data.isPrefixOf t.data = false) : a ++ s ≠ t := by
  intro he
  have hd : a.data ++ s.data = t.data := by
    rw [← String.data_append, he]
  have htrue : a.data.isPrefixOf t.data = true := by
    rw [← hd]
    exact List.isPrefixOf_iff_prefix.mpr (List.prefix_append _ _)
  rw [htrue] at h
  exact Bool.noConfusion h

/-- C9: the Chromium argument list contains `--no-sandbox` exactly when the
process runs as root (uid 0) or the `CI` environment variable is set to a
truthy (non-empty) value; in every other environment the flag is absent. -/
theorem c9_no_sandbox_iff_root_or_ci (port : Nat) (userDataDir : String)
    (ciVar : Option String) (uid : Option Nat) (headless : Option Bool) :
    "--no-sandbox" ∈ chromiumLaunchArgs port userDataDir ciVar uid headless ↔
      (ciTruthy ciVar = true ∨ uid = some 0) := by
  have hport : "--remote-debugging-port=" ++ toString port ≠ "--no-sandbox" :=
    string_append_ne_of_not_prefixed _ _ _ (by decide)
  have hdir : "--user-data-dir=" ++ userDataDir ≠ "--no-sandbox" :=
    string_append_ne_of_not_prefixed _ _ _ (by decide)
  constructor
  · intro hmem
    by_contra hno
    push_neg at hno
    have hcond : (ciTruthy ciVar || uid == some 0) = false := by
      rcases hno with ⟨h1, h2⟩
      have hciF : ciTruthy ciVar = false := by
        cases hc : ciTruthy ciVar
        · rfl
        · exact absurd hc h1
      have huidF : (uid == some 0) = false := by
        cases hu : uid == some 0
        · rfl
        · exact absurd (by simpa using hu) h2
      rw [hciF, huidF]
      rfl
    rw [chromiumLaunchArgs] at hmem
    simp only [hcond] at hmem
    by_cases hh : headless == some false <;>
      simp [hh, chromiumBaseArgs, Ne.symm hport, Ne.symm hdir] at hmem
  · intro hcond
    have hc : (ciTruthy ciVar || uid == some 0) = true := by
      rcases hcond with h | h
      · rw [h]
        rfl
      · rw [h]
        simp
    rw [chromiumLaunchArgs]
    simp only [hc]
    by_cases hh : headless == some false <;> simp [hh]

theorem find_decomp {α : Type} (p : α → Bool) (l : List α) (b : α)
    (h : l.find? p = some b) :
    ∃ l1 l2, l = l1 ++ b :: l2 ∧ p b = true ∧ ∀ x ∈ l1, p x = false := by
  induction l with
  | nil => simp at h
  | cons a rest ih =>
    cases hpa : p a with
    | true =>
      rw [List.find?_cons_of_pos _ hpa] at h
      have hab : a = b := Option.some.inj h
      subst hab
      refine ⟨[], rest, rfl, hpa, ?_⟩
      intro x hx
      simp at hx
    | false =>
      rw [List.find?_cons_of_neg _ (by simp [hpa])] at h
      obtain ⟨l1, l2, hsplit, hb, hall⟩ := ih h
      refine ⟨a :: l1, l2, ?_, hb, ?_⟩
      · rw [hsplit, List.cons_append]
      · intro x hx
        rcases List.mem_cons.mp hx with hx | hx
        · rw [hx]
          exact hpa
        · exact hall x hx

theorem whichFallback_cons_none (which : String → Option String)
    (cmd : String) (rest : List String) (hw : which cmd = none) :
    whichFallback which (cmd :: rest) = whichFallback which rest := by
  rw [whichFallback, hw]

theorem whichFallback_cons_some (which : String → Option String)
    (cmd : String) (rest : List String) (q : String) (hw : which cmd = some q) :
    whichFallback which (cmd :: rest) =
      if q = "" then whichFallback which rest
      else [{ name := cmd, type := classifyWhichCmd cmd, path := q,
              supportsCDP := true }] := by
  rw [whichFallback, hw]

theorem detectBrowsers_eq_table (os lad : String) (fsE : String → Bool)
    (which : String → Option String) (paths : List (String × List String))
    (hpf : browserPathsFor os lad = some paths) :
    detectBrowsers os lad fsE which =
      if os ≠ "win32" ∧ detectFromPaths fsE paths = [] then
        whichFallback which whichFallbackCmds
      else detectFromPaths fsE paths := by
  rw [detectBrowsers, hpf]

theorem detectFromPaths_spec (fsE : String → Bool)
    (paths : List (String × List String)) (b : BrowserInfo)
    (hb : b ∈ detectFromPaths fsE paths) :
    ∃ e ∈ paths, b.type = e.1 ∧ b.supportsCDP = !(e.1 = "firefox") := by
  rw [detectFromPaths, List.mem_filterMap] at hb
  obtain ⟨e, he, heq⟩ := hb
  refine ⟨e, he, ?_⟩
  cases hfind : e.2.find? fsE with
  | none =>
    rw [hfind] at heq
    simp at heq
  | some q =>
    rw [hfind] at heq
    simp at heq
    rw [← heq]
    exact ⟨rfl, rfl⟩

theorem whichFallback_spec (which : String → Option String) (cmds : List String)
    (b : BrowserInfo) (hb : b ∈ whichFallback which cmds) :
    ∃ cmd ∈ cmds, b.type = classifyWhichCmd cmd ∧ b.supportsCDP = true := by
  induction cmds with
  | nil => simp [whichFallback] at hb
  | cons cmd rest ih =>
    cases hw : which cmd with
    | none =>
      rw [whichFallback_cons_none which cmd rest hw] at hb
      obtain ⟨c, hc, hp⟩ := ih hb
      exact ⟨c, List.mem_cons_of_mem _ hc, hp⟩
    | some q =>
      rw [whichFallback_cons_some which cmd rest q hw] at hb
      by_cases hq : q = ""
      · rw [if_pos hq] at hb
        obtain ⟨c, hc, hp⟩ := ih hb
        exact ⟨c, List.mem_cons_of_mem _ hc, hp⟩
      · rw [if_neg hq] at hb
        simp at hb
        rw [hb]
        exact ⟨cmd, List.mem_cons_self _ _, rfl, rfl⟩

theorem detectBrowsers_ok (os lad : String) (fsE : String → Bool)
    (which : String → Option String) :
    ∀ b ∈ detectBrowsers os lad fsE which,
      b.type ∈ priorityOrder ∧ b.supportsCDP = true := by
  intro b hb
  cases hpf : browserPathsFor os lad with
  | none =>
    rw [detectBrowsers, hpf] at hb
    simp at hb
  | some paths =>
    rw [detectBrowsers_eq_table os lad fsE which paths hpf] at hb
    have hkeys : paths.map Prod.fst = priorityOrder := by
      rw [browserPathsFor] at hpf
      by_cases h1 : os = "darwin"
      · rw [if_pos h1] at hpf
        rw [← Option.some.inj hpf]
        rfl
      · rw [if_neg h1] at hpf
        by_cases h2 : os = "linux"
        · rw [if_pos h2] at hpf
          rw [← Option.some.inj hpf]
          rfl
        · rw [if_neg h2] at hpf
          by_cases h3 : os = "win32"
          · rw [if_pos h3] at hpf
            rw [← Option.some.inj hpf]
            rfl
          · rw [if_neg h3] at hpf
            exact absurd hpf (by simp)
    by_cases hcond : os ≠ "win32" ∧ detectFromPaths fsE paths = []
    · rw [if_pos hcond] at hb
      obtain ⟨cmd, hcmd, hty, hcdp⟩ := whichFallback_spec which _ b hb
      refine ⟨?_, hcdp⟩
      rw [hty]
      rcases (by simpa [whichFallbackCmds] using hcmd :
          cmd = "google-chrome" ∨ cmd = "chromium" ∨
          cmd = "chromium-browser" ∨ cmd = "microsoft-edge") with h | h | h | h <;>
        rw [h] <;> decide
    · rw [if_neg hcond] at hb
      obtain ⟨e, he, hty, hcdp⟩ := detectFromPaths_spec fsE paths b hb
      have hmem : e.1 ∈ priorityOrder := by
        rw [← hkeys]
        exact List.mem_map_of_mem Prod.fst he
      refine ⟨by rw [hty]; exact hmem, ?_⟩
      rw [hcdp]
      rcases (by simpa [priorityOrder] using hmem :
          e.1 = "chrome" ∨ e.1 = "edge" ∨ e.1 = "chromium" ∨ e.1 = "brave")
        with h | h | h | h <;> rw [h] <;> decide

theorem findByPriority_none_spec (bs : List BrowserInfo) (ts : List String)
    (h : findByPriority bs ts = none) :
    ∀ t ∈ ts, ∀ x ∈ bs, cdpCapableOf t x = false := by
  induction ts with
  | nil => intro t ht; simp at ht
  | cons t0 rest ih =>
    rw [findByPriority] at h
    cases hf : bs.find? (cdpCapableOf t0) with
    | some m =>
      rw [hf] at h
      simp at h
    | none =>
      rw [hf] at h
      intro t ht x hx
      rcases List.mem_cons.mp ht with ht | ht
      · rw [ht]
        have := List.find?_eq_none.mp hf x hx
        simpa using this
      · exact ih h t ht x hx

theorem findByPriority_decomp (bs : List BrowserInfo) (ts : List String)
    (b : BrowserInfo) (h : findByPriority bs ts = some b) :
    ∃ ts1 t ts2, ts = ts1 ++ t :: ts2 ∧
      (∀ u ∈ ts1, ∀ x ∈ bs, cdpCapableOf u x = false) ∧
      ∃ l1 l2, bs = l1 ++ b :: l2 ∧ cdpCapableOf t b = true ∧
        ∀ x ∈ l1, cdpCapableOf t x = false := by
  induction ts with
  | nil => simp [findByPriority] at h
  | cons t0 rest ih =>
    rw [findByPriority] at h
    cases hf : bs.find? (cdpCapableOf t0) with
    | some m =>
      rw [hf] at h
      have hbm : m = b := Option.some.inj h
      rw [hbm] at hf
      obtain ⟨l1, l2, hsplit, hcap, hall⟩ := find_decomp _ _ _ hf
      exact ⟨[], t0, rest, rfl, by simp, l1, l2, hsplit, hcap, hall⟩
    | none =>
      rw [hf] at h
      obtain ⟨ts1, t, ts2, hts, hpre, hrest⟩ := ih h
      refine ⟨t0 :: ts1, t, ts2, by rw [hts, List.cons_append], ?_, hrest⟩
      intro u hu x hx
      rcases List.mem_cons.mp hu with hu | hu
      · rw [hu]
        have := List.find?_eq_none.mp hf x hx
        simpa using this
      · exact hpre u hu x hx

theorem findBrowser_none_iff (bs : List BrowserInfo) (po : Option String) :
    findBrowser bs po = none ↔ ∀ b ∈ bs, b.supportsCDP = false := by
  by_cases hbs : bs = []
  · subst hbs
    simp [findBrowser.eq_def]
  · rw [findBrowser.eq_def, if_neg hbs]
    constructor
    · intro h b hb
      cases hpref : (match po with
          | some p => bs.find? (cdpCapableOf p)
          | none => none) with
      | some m => rw [hpref] at h; simp at h
      | none =>
        rw [hpref] at h
        cases hprio : findByPriority bs priorityOrder with
        | some m => rw [hprio] at h; simp at h
        | none =>
          rw [hprio] at h
          have := List.find?_eq_none.mp h b hb
          simpa using this
    · intro hall
      have hpref : (match po with
          | some p => bs.find? (cdpCapableOf p)
          | none => none) = none := by
        cases po with
        | none => rfl
        | some p =>
          refine List.find?_eq_none.mpr ?_
          intro x hx
          simp [cdpCapableOf, hall x hx]
      rw [hpref]
      have hprio : findByPriority bs priorityOrder = none := by
        have : ∀ ts : List String, findByPriority bs ts = none := by
          intro ts
          induction ts with
          | nil => rfl
          | cons t rest ihts =>
            rw [findByPriority]
            have hf : bs.find? (cdpCapableOf t) = none := by
              refine List.find?_eq_none.mpr ?_
              intro x hx
              simp [cdpCapableOf, hall x hx]
            rw [hf]
            exact ihts
        exact this priorityOrder
      rw [hprio]
      refine List.find?_eq_none.mpr ?_
      intro x hx
      simp [hall x hx]

/-- C5: over any detected browser list, `findBrowser` returns the first
descriptor with matching kind and CDP capability when a preferred kind is
given and such a descriptor exists; otherwise it behaves as with no
preference, following the priority order chrome, edge, chromium, brave
(first kind with a capable entry, first such entry in detection order);
it returns `none` exactly when no CDP-capable browser was detected, and it
is a total function (never throws). -/
theorem c5_find_browser_spec (os lad : String) (fsE : String → Bool)
    (which : String → Option String) (p : String) :
    ((∃ b ∈ detectBrowsers os lad fsE which, cdpCapableOf p b = true) →
      ∃ l1 b l2, detectBrowsers os lad fsE which = l1 ++ b :: l2 ∧
        cdpCapableOf p b = true ∧ (∀ x ∈ l1, cdpCapableOf p x = false) ∧
        findBrowser (detectBrowsers os lad fsE which) (some p) = some b) ∧
    ((¬ ∃ b ∈ detectBrowsers os lad fsE which, cdpCapableOf p b = true) →
      findBrowser (detectBrowsers os lad fsE which) (some p) =
        findBrowser (detectBrowsers os lad fsE which) none) ∧
    (∀ b, findBrowser (detectBrowsers os lad fsE which) none = some b →
      ∃ ts1 t ts2, priorityOrder = ts1 ++ t :: ts2 ∧
        (∀ u ∈ ts1, ∀ x ∈ detectBrowsers os lad fsE which, cdpCapableOf u x = false) ∧
        ∃ l1 l2, detectBrowsers os lad fsE which = l1 ++ b :: l2 ∧
          cdpCapableOf t b = true ∧ ∀ x ∈ l1, cdpCapableOf t x = false) ∧
    (findBrowser (detectBrowsers os lad fsE which) (some p) = none ↔
      ∀ b ∈ detectBrowsers os lad fsE which, b.supportsCDP = false) := by
  refine ⟨?_, ?_, ?_, findBrowser_none_iff _ _⟩
  · intro hex
    obtain ⟨b0, hb0, hcap0⟩ := hex
    have hne : detectBrowsers os lad fsE which ≠ [] := by
      intro h
      rw [h] at hb0
      simp at hb0
    cases hfind : (detectBrowsers os lad fsE which).find? (cdpCapableOf p) with
    | none =>
      have := List.find?_eq_none.mp hfind b0 hb0
      rw [hcap0] at this
      simp at this
    | some m =>
      obtain ⟨l1, l2, hsplit, hcap, hall⟩ := find_decomp _ _ _ hfind
      refine ⟨l1, m, l2, hsplit, hcap, hall, ?_⟩
      rw [findBrowser.eq_def, if_neg hne]
      simp only [hfind]
  · intro hnex
    have hfind : (detectBrowsers os lad fsE which).find? (cdpCapableOf p) = none := by
      refine List.find?_eq_none.mpr ?_
      intro x hx
      intro hcap
      exact hnex ⟨x, hx, hcap⟩
    by_cases hbs : detectBrowsers os lad fsE which = []
    · rw [findBrowser.eq_def, if_pos hbs, findBrowser.eq_def, if_pos hbs]
    · rw [findBrowser.eq_def, if_neg hbs, findBrowser.eq_def, if_neg hbs]
      simp only [hfind]
  · intro b hb
    by_cases hbs : detectBrowsers os lad fsE which = []
    · rw [findBrowser.eq_def, if_pos hbs] at hb
      simp at hb
    · rw [findBrowser.eq_def, if_neg hbs] at hb
      cases hprio : findByPriority (detectBrowsers os lad fsE which) priorityOrder with
      | some m =>
        rw [hprio] at hb
        have hbm : m = b := Option.some.inj hb
        rw [hbm] at hprio
        obtain ⟨ts1, t, ts2, hts, hpre, hrest⟩ :=
          findByPriority_decomp _ _ _ hprio
        exact ⟨ts1, t, ts2, hts, hpre, hrest⟩
      | none =>
        rw [hprio] at hb
        obtain ⟨x0, hx0⟩ : ∃ x, x ∈ detectBrowsers os lad fsE which := by
          cases hxs : detectBrowsers os lad fsE which with
          | nil => exact absurd hxs hbs
          | cons a rest => exact ⟨a, List.mem_cons_self _ _⟩
        obtain ⟨hty, hcdp⟩ := detectBrowsers_ok os lad fsE which x0 hx0
        have hnone := findByPriority_none_spec _ _ hprio x0.type hty x0 hx0
        rw [cdpCapableOf] at hnone
        simp [hcdp] at hnone

/-- C5 witness: on a Linux filesystem containing only
`/usr/bin/google-chrome`, the preferred kind chrome is honoured, and a
preferred kind with no capable match falls back to the no-preference
behaviour. -/
theorem c5_find_browser_witness :
    (∃ l1 b l2, detectBrowsers "linux" "" demoFs demoWhich = l1 ++ b :: l2 ∧
      cdpCapableOf "chrome" b = true ∧ (∀ x ∈ l1, cdpCapableOf "chrome" x = false) ∧
      findBrowser (detectBrowsers "linux" "" demoFs demoWhich) (some "chrome") = some b) ∧
    (findBrowser (detectBrowsers "linux" "" demoFs demoWhich) (some "firefox") =
      findBrowser (detectBrowsers "linux" "" demoFs demoWhich) none) := by
  constructor
  · exact (c5_find_browser_spec "linux" "" demoFs demoWhich "chrome").1 (by decide)
  · exact (c5_find_browser_spec "linux" "" demoFs demoWhich "firefox").2.1 (by decide)

/-- C6 counterexample: the listen call `getFreePort` issues carries no host
argument at all — the ephemeral listener is bound on the unspecified
(all-interfaces) address, not on the loopback interface as claimed. -/
theorem c6_counterexample_not_loopback :
    NetAction.listenOn 0 (some "127.0.0.1") ∉ getFreePortTrace 41837 ∧
    NetAction.listenOn 0 none ∈ getFreePortTrace 41837 ∧
    getFreePortTrace 41837 ≠ getFreePortSpecTrace 41837 := by
  refine ⟨by decide, by decide, by decide⟩

/-- C6 (amended): `getFreePort` binds its temporary TCP listener on port 0
with no host argument (the unspecified, all-interfaces address), reads the
OS-assigned port, closes the listener before resolving, and returns that
integer port. -/
theorem c6_free_port_trace (p : Nat) :
    getFreePortTrace p =
      [NetAction.createServer, NetAction.listenOn 0 none,
       NetAction.readAddressPort p, NetAction.closeServer,
       NetAction.resolveValue p] ∧
    (∀ q h, NetAction.listenOn q h ∈ getFreePortTrace p → q = 0 ∧ h = none) ∧
    (∀ n, NetAction.resolveValue n ∈ getFreePortTrace p → n = p) ∧
    (∃ l1 l2 l3, getFreePortTrace p =
      l1 ++ NetAction.closeServer :: l2 ++ NetAction.resolveValue p :: l3) := by
  refine ⟨rfl, ?_, ?_, ?_⟩
  · intro q h hm
    simp [getFreePortTrace] at hm
    exact hm
  · intro n hm
    simp [getFreePortTrace] at hm
    exact hm
  · exact ⟨[NetAction.createServer, NetAction.listenOn 0 none,
      NetAction.readAddressPort p], [], [], rfl⟩

/-- C6 amended-claim witness at a concrete assigned port. -/
theorem c6_free_port_witness :
    (0 = 0 ∧ (none : Option String) = none) ∧ 52100 = 52100 :=
  ⟨(c6_free_port_trace 52100).2.1 0 none (by decide),
   (c6_free_port_trace 52100).2.2.1 52100 (by decide)⟩

/-- C7 counterexample: a state file whose `port` field is the JSON number
1.5 does not have two integer fields, yet `readState` accepts it — the
source only checks `typeof === "number"`, so the claimed "returns none when
the file lacks the two integer fields" fails for non-integer numbers. -/
theorem c7_counterexample_nonint_accepted :
    readState halfPortFile = some { port := (3 : ℚ) / 2, pid := 2 } ∧
    ¬ ((3 : ℚ) / 2).den = 1 := by
  constructor
  · rfl
  · norm_num

theorem readFields_none (o1 o2 : Option Json)
    (h : (∀ q : ℚ, o1 ≠ some (Json.num q)) ∨ (∀ q : ℚ, o2 ≠ some (Json.num q))) :
    (match o1, o2 with
     | some (Json.num p), some (Json.num q) =>
       some { port := p, pid := q }
     | _, _ => (none : Option CoordinatorState)) = none := by
  cases o1 with
  | none => rfl
  | some v1 =>
    cases o2 with
    | none => cases v1 <;> rfl
    | some v2 =>
      cases v1 with
      | num p =>
        cases v2 with
        | num q =>
          rcases h with h | h
          · exact absurd rfl (h p)
          · exact absurd rfl (h q)
        | null => rfl
        | bool b => rfl
        | str s2 => rfl
        | arr es => rfl
        | obj fs => rfl
      | null => rfl
      | bool b => rfl
      | str s2 => rfl
      | arr es => rfl
      | obj fs => rfl

/-- C7 (amended): writing a record with numeric `port` and `pid` fields and
reading it back returns the same record (in particular for integer
records); `readState` returns `none` whenever the file is absent, is not
valid JSON, or lacks the two *numeric* fields `port` and `pid` — the code
checks `typeof === "number"`, not integrality. -/
theorem c7_state_roundtrip :
    (∀ s : CoordinatorState, s.port.den = 1 → s.pid.den = 1 →
      readState (writeState s) = some s) ∧
    readState FileContent.absent = none ∧
    readState FileContent.malformed = none ∧
    (∀ j : Json,
      ((¬ ∃ q : ℚ, Json.getField j "port" = some (Json.num q)) ∨
       (¬ ∃ q : ℚ, Json.getField j "pid" = some (Json.num q))) →
      readState (FileContent.json j) = none) := by
  refine ⟨fun s _ _ => rfl, rfl, rfl, ?_⟩
  intro j h
  have h2 : (∀ q : ℚ, Json.getField j "port" ≠ some (Json.num q)) ∨
      (∀ q : ℚ, Json.getField j "pid" ≠ some (Json.num q)) := by
    rcases h with h | h
    · exact Or.inl (fun q hq => h ⟨q, hq⟩)
    · exact Or.inr (fun q hq => h ⟨q, hq⟩)
  exact readFields_none _ _ h2

/-- C7 witness: a concrete integer record round-trips, and a file whose
`port` field is a string reads as `none`. -/
theorem c7_state_roundtrip_witness :
    readState (writeState { port := 41837, pid := 1234 }) =
      some { port := 41837, pid := 1234 } ∧
    readState (FileContent.json (Json.obj [("port", Json.str "x")])) = none := by
  constructor
  · exact c7_state_roundtrip.1 { port := 41837, pid := 1234 } rfl rfl
  · refine c7_state_roundtrip.2.2.2 _ (Or.inl ?_)
    rintro ⟨q, hq⟩
    have hg : Json.getField (Json.obj [("port", Json.str "x")]) "port" =
        some (Json.str "x") := rfl
    rw [hg] at hq
    exact Json.noConfusion (Option.some.inj hq)

theorem hasNl_append (a b : List Char) :
    hasNl (a ++ b) = (hasNl a || hasNl b) := by
  simp [hasNl]

theorem runIpc_cons_timeout (parse : List Char → Option Json) (T t : Nat)
    (ev : SockEvent) (rest : List (Nat × SockEvent)) (acc : List Char)
    (ht : T ≤ t) :
    runIpc parse T ((t, ev) :: rest) acc =
      { outcome := IpcOutcome.timedOut, destroyedSocket := true } := by
  simp [runIpc, ht]

theorem runIpc_cons_connected (parse : List Char → Option Json) (T t : Nat)
    (rest : List (Nat × SockEvent)) (acc : List Char) (ht : t < T) :
    runIpc parse T ((t, SockEvent.connected) :: rest) acc =
      runIpc parse T rest acc := by
  have h2 : ¬ T ≤ t := by omega
  simp [runIpc, h2]

theorem runIpc_cons_data_nonl (parse : List Char → Option Json) (T t : Nat)
    (c : List Char) (rest : List (Nat × SockEvent)) (acc : List Char)
    (ht : t < T) (hnl : hasNl (acc ++ c) = false) :
    runIpc parse T ((t, SockEvent.dataChunk c) :: rest) acc =
      runIpc parse T rest (acc ++ c) := by
  have h2 : ¬ T ≤ t := by omega
  simp [runIpc, h2, hnl]

theorem runIpc_cons_data_nl (parse : List Char → Option Json) (T t : Nat)
    (c : List Char) (rest : List (Nat × SockEvent)) (acc : List Char)
    (ht : t < T) (hnl : hasNl (acc ++ c) = true) :
    runIpc parse T ((t, SockEvent.dataChunk c) :: rest) acc =
      (match parse (firstLine (acc ++ c)) with
       | some j => { outcome := IpcOutcome.okResp j, destroyedSocket := true }
       | none =>
         { outcome := IpcOutcome.badJson (firstLine (acc ++ c)),
           destroyedSocket := true }) := by
  have h2 : ¬ T ≤ t := by omega
  simp [runIpc, h2, hnl]

theorem runIpc_cons_error (parse : List Char → Option Json) (T t : Nat)
    (rest : List (Nat × SockEvent)) (acc : List Char) (ht : t < T) :
    runIpc parse T ((t, SockEvent.errorEvt) :: rest) acc =
      { outcome := IpcOutcome.socketError, destroyedSocket := false } := by
  have h2 : ¬ T ≤ t := by omega
  simp [runIpc, h2]

theorem runIpc_cons_close_nonl (parse : List Char → Option Json) (T t : Nat)
    (rest : List (Nat × SockEvent)) (acc : List Char) (ht : t < T)
    (hnl : hasNl acc = false) :
    runIpc parse T ((t, SockEvent.closeEvt) :: rest) acc =
      { outcome := IpcOutcome.closedBeforeNewline, destroyedSocket := false } := by
  have h2 : ¬ T ≤ t := by omega
  simp [runIpc, h2, hnl]

theorem runIpc_splice (parse : List Char → Option Json) (T : Nat)
    (pre : List (Nat × SockEvent)) :
    ∀ acc, (∀ e ∈ pre, quietEvt T e) → hasNl (acc ++ dataOf pre) = false →
    ∀ rest, runIpc parse T (pre ++ rest) acc =
      runIpc parse T rest (acc ++ dataOf pre) := by
  induction pre with
  | nil =>
    intro acc _ _ rest
    simp [dataOf]
  | cons e pre2 ih =>
    intro acc hq hnl rest
    obtain ⟨t, ev⟩ := e
    have hqe := hq (t, ev) (List.mem_cons_self _ _)
    have ht : t < T := hqe.1
    rcases hqe.2 with hev | ⟨c, hev⟩
    · simp only at hev
      subst hev
      have hdata : dataOf ((t, SockEvent.connected) :: pre2) = dataOf pre2 := rfl
      rw [hdata] at hnl
      rw [List.cons_append, runIpc_cons_connected parse T t _ acc ht]
      exact ih acc (fun x hx => hq x (List.mem_cons_of_mem _ hx)) hnl rest
    · simp only at hev
      subst hev
      have hdata : dataOf ((t, SockEvent.dataChunk c) :: pre2) =
          c ++ dataOf pre2 := rfl
      rw [hdata] at hnl
      have hassoc : acc ++ (c ++ dataOf pre2) = (acc ++ c) ++ dataOf pre2 :=
        (List.append_assoc acc c (dataOf pre2)).symm
      rw [hassoc] at hnl
      have hnlc : hasNl (acc ++ c) = false := by
        rw [hasNl_append] at hnl
        rcases Bool.or_eq_false_iff.mp hnl with ⟨h1, _⟩
        exact h1
      rw [List.cons_append, runIpc_cons_data_nonl parse T t c _ acc ht hnlc]
      have := ih (acc ++ c) (fun x hx => hq x (List.mem_cons_of_mem _ hx)) hnl rest
      rw [this, hdata, hassoc]

theorem runIpc_ok_shape (parse : List Char → Option Json) (T : Nat) :
    ∀ (events : List (Nat × SockEvent)) (acc : List Char) (j : Json),
    hasNl acc = false →
    (runIpc parse T events acc).outcome = IpcOutcome.okResp j →
    ∃ pre t c post, events = pre ++ (t, SockEvent.dataChunk c) :: post ∧
      (∀ e ∈ pre, quietEvt T e) ∧ hasNl (acc ++ dataOf pre) = false ∧ t < T ∧
      hasNl ((acc ++ dataOf pre) ++ c) = true ∧
      parse (firstLine ((acc ++ dataOf pre) ++ c)) = some j := by
  intro events
  induction events with
  | nil =>
    intro acc j _ h
    simp [runIpc] at h
  | cons e rest ih =>
    intro acc j hacc h
    obtain ⟨t, ev⟩ := e
    by_cases ht : T ≤ t
    · rw [runIpc_cons_timeout parse T t ev rest acc ht] at h
      simp at h
    · have htl : t < T := by omega
      cases ev with
      | connected =>
        rw [runIpc_cons_connected parse T t rest acc htl] at h
        obtain ⟨pre, t2, c, post, hsplit, hquiet, hnl, ht2, hnl2, hp⟩ :=
          ih acc j hacc h
        refine ⟨(t, SockEvent.connected) :: pre, t2, c, post, ?_, ?_, hnl, ht2, hnl2, hp⟩
        · rw [hsplit, List.cons_append]
        · intro x hx
          rcases List.mem_cons.mp hx with hx | hx
          · rw [hx]
            exact ⟨htl, Or.inl rfl⟩
          · exact hquiet x hx
      | dataChunk c =>
        by_cases hnl : hasNl (acc ++ c) = true
        · rw [runIpc_cons_data_nl parse T t c rest acc htl hnl] at h
          cases hp : parse (firstLine (acc ++ c)) with
          | some j2 =>
            rw [hp] at h
            simp at h
            refine ⟨[], t, c, rest, rfl, ?_, ?_, htl, ?_, ?_⟩
            · intro x hx
              simp at hx
            · simpa [dataOf] using hacc
            · simpa [dataOf] using hnl
            · rw [h] at hp
              simpa [dataOf] using hp
          | none =>
            rw [hp] at h
            simp at h
        · have hnlf : hasNl (acc ++ c) = false := by
            cases hx : hasNl (acc ++ c)
            · rfl
            · exact absurd hx hnl
          rw [runIpc_cons_data_nonl parse T t c rest acc htl hnlf] at h
          obtain ⟨pre, t2, c2, post, hsplit, hquiet, hnl2, ht2, hnl3, hp⟩ :=
            ih (acc ++ c) j hnlf h
          refine ⟨(t, SockEvent.dataChunk c) :: pre, t2, c2, post, ?_, ?_, ?_, ht2, ?_, ?_⟩
          · rw [hsplit, List.cons_append]
          · intro x hx
            rcases List.mem_cons.mp hx with hx | hx
            · rw [hx]
              exact ⟨htl, Or.inr ⟨c, rfl⟩⟩
            · exact hquiet x hx
          · have hdata : dataOf ((t, SockEvent.dataChunk c) :: pre) =
                c ++ dataOf pre := rfl
            rw [hdata, ← List.append_assoc]
            exact hnl2
          · have hdata : dataOf ((t, SockEvent.dataChunk c) :: pre) =
                c ++ dataOf pre := rfl
            rw [hdata, ← List.append_assoc]
            exact hnl3
          · have hdata : dataOf ((t, SockEvent.dataChunk c) :: pre) =
                c ++ dataOf pre := rfl
            rw [hdata, ← List.append_assoc]
            exact hp
      | errorEvt =>
        rw [runIpc_cons_error parse T t rest acc htl] at h
        simp at h
      | closeEvt =>
        rw [runIpc_cons_close_nonl parse T t rest acc htl hacc] at h
        simp at h

/-- C8: for any JSON parser, timeout and socket-event trace, the
`sendIpcRequest` promise rejects exactly on: nothing settling before the
timer (timeout, with the socket destroyed), a socket error, the connection
closing before a newline arrived, or the first complete line failing to
parse; it resolves only when a chunk completes a line that parses, before
the timeout and with no earlier error or close. -/
theorem c8_send_ipc_request_spec (parse : List Char → Option Json) (T : Nat) :
    (∀ events, quietPre T events →
      (runIpc parse T events []).outcome = IpcOutcome.timedOut ∧
      (runIpc parse T events []).destroyedSocket = true) ∧
    (∀ pre t ev post, quietPre T pre → T ≤ t →
      (runIpc parse T (pre ++ (t, ev) :: post) []).outcome = IpcOutcome.timedOut ∧
      (runIpc parse T (pre ++ (t, ev) :: post) []).destroyedSocket = true) ∧
    (∀ pre t post, quietPre T pre → t < T →
      (runIpc parse T (pre ++ (t, SockEvent.errorEvt) :: post) []).outcome =
        IpcOutcome.socketError) ∧
    (∀ pre t post, quietPre T pre → t < T →
      (runIpc parse T (pre ++ (t, SockEvent.closeEvt) :: post) []).outcome =
        IpcOutcome.closedBeforeNewline) ∧
    (∀ pre t c post, quietPre T pre → t < T → hasNl (dataOf pre ++ c) = true →
      parse (firstLine (dataOf pre ++ c)) = none →
      (runIpc parse T (pre ++ (t, SockEvent.dataChunk c) :: post) []).outcome =
        IpcOutcome.badJson (firstLine (dataOf pre ++ c))) ∧
    (∀ events j, (runIpc parse T events []).outcome = IpcOutcome.okResp j →
      ∃ pre t c post, events = pre ++ (t, SockEvent.dataChunk c) :: post ∧
        quietPre T pre ∧ t < T ∧ hasNl (dataOf pre ++ c) = true ∧
        parse (firstLine (dataOf pre ++ c)) = some j) := by
  have hq0 : ∀ pre : List (Nat × SockEvent), quietPre T pre →
      hasNl (([] : List Char) ++ dataOf pre) = false := by
    intro pre hpre
    simpa using hpre.2
  refine ⟨?_, ?_, ?_, ?_, ?_, ?_⟩
  · intro events hpre
    have h := runIpc_splice parse T events [] hpre.1 (hq0 events hpre) []
    rw [List.append_nil] at h
    rw [h]
    exact ⟨rfl, rfl⟩
  · intro pre t ev post hpre ht
    have h := runIpc_splice parse T pre [] hpre.1 (hq0 pre hpre) ((t, ev) :: post)
    rw [h, runIpc_cons_timeout parse T t ev post _ ht]
    exact ⟨rfl, rfl⟩
  · intro pre t post hpre ht
    have h := runIpc_splice parse T pre [] hpre.1 (hq0 pre hpre)
      ((t, SockEvent.errorEvt) :: post)
    rw [h, runIpc_cons_error parse T t post _ ht]
  · intro pre t post hpre ht
    have h := runIpc_splice parse T pre [] hpre.1 (hq0 pre hpre)
      ((t, SockEvent.closeEvt) :: post)
    rw [h, runIpc_cons_close_nonl parse T t post _ ht (by simpa using hpre.2)]
  · intro pre t c post hpre ht hnl hp
    have h := runIpc_splice parse T pre [] hpre.1 (hq0 pre hpre)
      ((t, SockEvent.dataChunk c) :: post)
    have hnl2 : hasNl (([] : List Char) ++ dataOf pre ++ c) = true := by
      simpa using hnl
    rw [h, runIpc_cons_data_nl parse T t c post _ ht hnl2]
    have hp2 : parse (firstLine (([] : List Char) ++ dataOf pre ++ c)) = none := by
      simpa using hp
    rw [hp2]
    simp
  · intro events j h
    obtain ⟨pre, t, c, post, hsplit, hquiet, hnl, ht, hnl2, hp⟩ :=
      runIpc_ok_shape parse T events [] j rfl h
    refine ⟨pre, t, c, post, hsplit, ⟨hquiet, by simpa using hnl⟩, ht, ?_, ?_⟩
    · simpa using hnl2
    · simpa using hp

/-- C8 witness: with no socket activity the request times out and the
socket is destroyed; a close after a quiet connect rejects with the
premature-close error. -/
theorem c8_send_ipc_request_witness :
    ((runIpc (fun _ => none) 5000 [] []).outcome = IpcOutcome.timedOut ∧
      (runIpc (fun _ => none) 5000 [] []).destroyedSocket = true) ∧
    (runIpc (fun _ => none) 5000
      [(10, SockEvent.connected), (20, SockEvent.closeEvt)] []).outcome =
      IpcOutcome.closedBeforeNewline := by
  have hq : quietPre 5000 [(10, SockEvent.connected)] := by
    constructor
    · intro e he
      simp at he
      rw [he]
      exact ⟨by norm_num, Or.inl rfl⟩
    · rfl
  constructor
  · exact (c8_send_ipc_request_spec (fun _ => none) 5000).1 [] ⟨by simp, rfl⟩
  · exact (c8_send_ipc_request_spec (fun _ => none) 5000).2.2.2.1
      [(10, SockEvent.connected)] 20 [] hq (by norm_num)

/-- C10: `sendIpc` reports success whenever any well-formed response line is
received — without inspecting the response's `type` field — so a navigate
request that the extension answers with an `"error"`-typed response still
makes `coordinator_navigate` record the URL as the active browser URL and
report the navigation as successful. -/
theorem c10_send_ipc_ignores_response_type :
    (∀ (path : String) (r : IpcResponse) (a2 : Option IpcResponse),
      sendIpc (some path) (some r) a2 = true) ∧
    (∀ (path : String) (r1 r2 : IpcResponse) (a2 : Option IpcResponse),
      sendIpc (some path) (some r1) a2 = sendIpc (some path) (some r2) a2) ∧
    (∀ (env : VsCodeEnvState) (p url : String) (r : IpcResponse)
        (a2 : Option IpcResponse),
      env.ipcSocketPath = some p → url ≠ "" → r.type = "error" →
      coordinatorNavigate env url (some r) a2 =
        ({ env with activeBrowserUrl := some url },
         NavigateResult.vscodeNavigated url)) := by
  refine ⟨fun _ _ _ => rfl, fun _ _ _ _ => rfl, ?_⟩
  intro env p url r a2 hpath hurl _
  rw [coordinatorNavigate, if_neg hurl, hpath]
  rfl

/-- C10 witness: a concrete navigate answered by an error-typed response is
still recorded as a successful navigation. -/
theorem c10_send_ipc_ignores_response_type_witness :
    coordinatorNavigate
      { ipcSocketPath := some "/tmp/ipc-aaaaaaaa.sock", activeBrowserUrl := none }
      "https://example.com"
      (some { id := "navigate-1", type := "error", payload := none }) none =
      ({ ipcSocketPath := some "/tmp/ipc-aaaaaaaa.sock",
         activeBrowserUrl := some "https://example.com" },
       NavigateResult.vscodeNavigated "https://example.com") :=
  c10_send_ipc_ignores_response_type.2.2
    { ipcSocketPath := some "/tmp/ipc-aaaaaaaa.sock", activeBrowserUrl := none }
    "/tmp/ipc-aaaaaaaa.sock" "https://example.com"
    { id := "navigate-1", type := "error", payload := none } none
    rfl (by simp) rfl
